import Mathlib

/-!
Shallow embedding of the session manager in
`src/android/app/src/main/cpp/ai_chat.cpp`.

The inference engine (llama.cpp) is a black box: tokenization is modelled by
taking token lists as inputs, sampling/detokenization by oracle functions
passed to `generate_next_token_ffi`, and `llama_decode` as always succeeding.
The engine's position-indexed memory (KV cache) is modelled as a list of
(position, token) entries, with `llama_memory_seq_rm` / `llama_memory_seq_add`
as filter / shift-map over it.  Two ghost fields instrument the state: `log`
records every `common_batch_add` call handed to `llama_decode`, and `frees`
records every resource-free call, so that theorems can speak about which
tokens were decoded at which positions and which resources were released.
-/

namespace AIChat

/-- `DEFAULT_CONTEXT_SIZE` from ai_chat.cpp. -/
def DEFAULT_CONTEXT_SIZE : Int := 256

/-- `OVERFLOW_HEADROOM` from ai_chat.cpp. -/
def OVERFLOW_HEADROOM : Int := 4

/-- `BATCH_SIZE` from ai_chat.cpp (the decode loop advances one token at a time). -/
def BATCH_SIZE : Nat := 1

/-- One entry of the engine's position-indexed memory (KV cache). -/
structure KVEntry where
  pos : Int
  tok : Int
deriving DecidableEq, Repr

/-- One `common_batch_add` call: token id, absolute position, want-logit flag. -/
structure BatchAdd where
  tok : Int
  pos : Int
  logit : Bool
deriving DecidableEq, Repr

/-- A resource released during `unload_ffi`. -/
inductive FreeRes where
  | sampler
  | batch
  | context
  | model
deriving DecidableEq, Repr

/-- The global mutable state of ai_chat.cpp.  The `*_owned` booleans model the
nullness of the corresponding global handles (`g_sampler`, `g_context`,
`g_model`); `kv` models the engine memory; `log` and `frees` are ghost
instrumentation. -/
structure Session where
  sampler_owned : Bool
  context_owned : Bool
  model_owned : Bool
  chat_msgs : List (List Nat × List Nat)
  system_prompt_position : Int
  current_position : Int
  stop_generation_position : Int
  cached_token_chars : List Nat
  assistant_ss : List Nat
  kv : List KVEntry
  log : List BatchAdd
  frees : List FreeRes
deriving DecidableEq, Repr

/-- `llama_memory_seq_rm(mem, 0, p0, p1)`: drop entries at positions in [p0, p1). -/
def seq_rm (mem : List KVEntry) (p0 p1 : Int) : List KVEntry :=
  mem.filter fun e => decide (¬ (p0 ≤ e.pos ∧ e.pos < p1))

/-- `llama_memory_seq_add(mem, 0, p0, p1, delta)`: shift positions in [p0, p1) by delta. -/
def seq_add (mem : List KVEntry) (p0 p1 delta : Int) : List KVEntry :=
  mem.map fun e => if p0 ≤ e.pos ∧ e.pos < p1 then ⟨e.pos + delta, e.tok⟩ else e

/-- `reset_long_term_states(clear_kv_cache)` from ai_chat.cpp. -/
def reset_long_term_states (clear_kv_cache : Bool) (s : Session) : Session :=
  { s with chat_msgs := [],
           system_prompt_position := 0,
           current_position := 0,
           kv := if clear_kv_cache && s.context_owned then [] else s.kv }

/-- `reset_short_term_states()` from ai_chat.cpp. -/
def reset_short_term_states (s : Session) : Session :=
  { s with stop_generation_position := 0,
           cached_token_chars := [],
           assistant_ss := [] }

/-- `shift_context()` from ai_chat.cpp: discard half of the non-system history
and renumber the remaining positions.  C integer division on non-negative
operands is truncation toward zero, `Int.tdiv`. -/
def shift_context (s : Session) : Session :=
  let n_discard := (s.current_position - s.system_prompt_position).tdiv 2
  { s with kv := seq_add
              (seq_rm s.kv s.system_prompt_position (s.system_prompt_position + n_discard))
              (s.system_prompt_position + n_discard) s.current_position (-n_discard),
           current_position := s.current_position - n_discard }

/-- The body of the loop in `decode_tokens_in_batches`, specialized to
`BATCH_SIZE = 1` (so each batch holds exactly one token, `cur_batch_size = 1`,
`j = 0`).  `total` is `tokens.size()` of the full call and `k` the loop index
`i`.  Each step checks `start_pos + i + cur_batch_size >= 252` and shifts,
then batch-adds the token at position `start_pos + i` with
`want_logit = compute_last_logit && (i + j == tokens.size() - 1)`, and calls
`llama_decode` (modelled as succeeding and inserting into `kv`). -/
def decode_go (compute_last : Bool) (total : Nat) (start : Int) :
    List Int → Nat → Session → Session
  | [], _, s => s
  | t :: ts, k, s =>
    let s1 := if start + (k : Int) + 1 ≥ DEFAULT_CONTEXT_SIZE - OVERFLOW_HEADROOM then
                shift_context s
              else s
    let want := compute_last && (k == total - 1)
    let s2 := { s1 with log := s1.log ++ [⟨t, start + (k : Int), want⟩],
                        kv := s1.kv ++ [⟨start + (k : Int), t⟩] }
    decode_go compute_last total start ts (k + 1) s2

/-- `decode_tokens_in_batches` from ai_chat.cpp; the status is 0 because the
engine decode is modelled as succeeding. -/
def decode_tokens_in_batches (s : Session) (tokens : List Int) (start_pos : Int)
    (compute_last_logit : Bool) : Session × Int :=
  (decode_go compute_last_logit tokens.length start_pos tokens 0 s, 0)

/-- The scanning loop of `is_valid_utf8` from ai_chat.cpp, as a state machine
over the byte list; the second argument counts the continuation bytes still
expected for the current multi-byte sequence.  With 0 pending, a lead byte
declares the sequence length 1–4 via its high bits (anything else fails);
with `k + 1` pending, the next byte must match `10xxxxxx`; reaching the
terminator (list end) mid-sequence fails the `(*bytes & 0xC0) != 0x80` test. -/
def utf8_scan : List Nat → Nat → Bool
  | [], 0 => true
  | [], _ + 1 => false
  | b :: rest, 0 =>
    if b == 0 then true
    else if (b &&& 0x80) == 0x00 then utf8_scan rest 0
    else if (b &&& 0xE0) == 0xC0 then utf8_scan rest 1
    else if (b &&& 0xF0) == 0xE0 then utf8_scan rest 2
    else if (b &&& 0xF8) == 0xF0 then utf8_scan rest 3
    else false
  | c :: rest, k + 1 => if (c &&& 0xC0) == 0x80 then utf8_scan rest k else false

/-- `is_valid_utf8` from ai_chat.cpp, on the byte list of a NUL-terminated C
string (the list holds the bytes before the terminator; a 0 byte inside the
list plays the role of an embedded terminator and stops the scan, exactly as
`while (*bytes != 0x00)` does). -/
def is_valid_utf8 (l : List Nat) : Bool := utf8_scan l 0

/-- `process_system_prompt_ffi` from ai_chat.cpp, taking the token list that
`common_tokenize` produced for the formatted prompt.  Returns the new state
and the status code. -/
def process_system_prompt_ffi (s : Session) (system_tokens : List Int) : Session × Int :=
  if s.context_owned then
    let s1 := reset_short_term_states (reset_long_term_states true s)
    if (system_tokens.length : Int) > DEFAULT_CONTEXT_SIZE - OVERFLOW_HEADROOM then
      (s1, 1)
    else
      let r := decode_tokens_in_batches s1 system_tokens s1.current_position false
      ({ r.1 with system_prompt_position := (system_tokens.length : Int),
                  current_position := (system_tokens.length : Int) }, 0)
  else (s, 1)

/-- `process_user_prompt_ffi` from ai_chat.cpp, taking the token list that
`common_tokenize` produced for the formatted prompt.  `resize(max_batch_size)`
on a `std::vector` keeps the first `max_batch_size` elements, i.e. `List.take`. -/
def process_user_prompt_ffi (s : Session) (user_tokens : List Int) (n_predict : Int) :
    Session × Int :=
  if s.context_owned then
    let s1 := reset_short_term_states s
    let user_prompt_size : Int := user_tokens.length
    let max_batch_size : Int := DEFAULT_CONTEXT_SIZE - OVERFLOW_HEADROOM
    let tokens := if user_prompt_size > max_batch_size then
                    user_tokens.take max_batch_size.toNat
                  else user_tokens
    let r := decode_tokens_in_batches s1 tokens s1.current_position true
    let s3 := { r.1 with current_position := r.1.current_position + user_prompt_size }
    ({ s3 with stop_generation_position := s3.current_position + n_predict }, 0)
  else (s, 1)

/-- `generate_next_token_ffi` from ai_chat.cpp.  The engine oracles: `is_eog`
is `llama_vocab_is_eog`, `piece` is `common_token_to_piece` (bytes), and
`sampled_token` the value returned by `llama_sampler_sample`; `llama_decode`
is modelled as succeeding.  `none` models the NULL sentinel, `some []` the
empty-chunk string. -/
def generate_next_token_ffi (is_eog : Int → Bool) (piece : Int → List Nat)
    (sampled_token : Int) (s : Session) : Session × Option (List Nat) :=
  if s.context_owned && s.sampler_owned then
    let s1 := if s.current_position ≥ DEFAULT_CONTEXT_SIZE - OVERFLOW_HEADROOM then
                shift_context s
              else s
    if s1.current_position ≥ s1.stop_generation_position then (s1, none)
    else
      let s2 := { s1 with log := s1.log ++ [(⟨sampled_token, s1.current_position, true⟩ : BatchAdd)],
                          kv := s1.kv ++ [(⟨s1.current_position, sampled_token⟩ : KVEntry)] }
      let s3 := { s2 with current_position := s2.current_position + 1 }
      if is_eog sampled_token then (s3, none)
      else
        let buf := s3.cached_token_chars ++ piece sampled_token
        let s4 := { s3 with cached_token_chars := buf }
        if is_valid_utf8 buf then
          ({ s4 with cached_token_chars := [],
                     assistant_ss := s4.assistant_ss ++ buf }, some buf)
        else (s4, some [])
  else (s, none)

/-- `stop_generation_ffi` from ai_chat.cpp. -/
def stop_generation_ffi (s : Session) : Session :=
  reset_short_term_states s

/-- `reset_conversation_ffi` from ai_chat.cpp. -/
def reset_conversation_ffi (s : Session) : Session :=
  reset_short_term_states (reset_long_term_states true s)

/-- `unload_ffi` from ai_chat.cpp: reset bookkeeping, then free sampler, then
batch and context together (guarded by the context handle), then the model,
nulling each pointer handle after its free. -/
def unload_ffi (s : Session) : Session :=
  let s0 := reset_short_term_states (reset_long_term_states false s)
  let s1 := if s0.sampler_owned then
              { s0 with sampler_owned := false, frees := s0.frees ++ [.sampler] }
            else s0
  let s2 := if s1.context_owned then
              { s1 with context_owned := false, frees := s1.frees ++ [.batch, .context] }
            else s1
  if s2.model_owned then
    { s2 with model_owned := false, frees := s2.frees ++ [.model] }
  else s2

/-- A fully loaded session with empty history, as left by
init / load model / prepare session. -/
def baseSession : Session :=
  { sampler_owned := true,
    context_owned := true,
    model_owned := true,
    chat_msgs := [],
    system_prompt_position := 0,
    current_position := 0,
    stop_generation_position := 0,
    cached_token_chars := [],
    assistant_ss := [],
    kv := [],
    log := [],
    frees := [] }

/-! ### Basic lemmas about `shift_context` -/

theorem shift_context_system (s : Session) :
    (shift_context s).system_prompt_position = s.system_prompt_position := rfl

theorem shift_context_log (s : Session) : (shift_context s).log = s.log := rfl

theorem shift_context_stop (s : Session) :
    (shift_context s).stop_generation_position = s.stop_generation_position := rfl

theorem shift_context_flags (s : Session) :
    (shift_context s).context_owned = s.context_owned ∧
    (shift_context s).sampler_owned = s.sampler_owned ∧
    (shift_context s).model_owned = s.model_owned := ⟨rfl, rfl, rfl⟩

theorem shift_context_cur (s : Session) :
    (shift_context s).current_position
      = s.current_position - (s.current_position - s.system_prompt_position).tdiv 2 := rfl

theorem shift_context_cur_ge (s : Session)
    (h : s.system_prompt_position ≤ s.current_position) :
    s.system_prompt_position ≤ (shift_context s).current_position := by
  rw [shift_context_cur,
    Int.tdiv_eq_ediv (by omega : (0:Int) ≤ s.current_position - s.system_prompt_position)
      (by omega : (0:Int) ≤ 2)]
  omega

theorem shift_context_noop (s : Session)
    (h : s.current_position = s.system_prompt_position) : shift_context s = s := by
  have h0 : s.current_position - s.system_prompt_position = 0 := by omega
  simp only [shift_context, h0, Int.zero_tdiv]
  have hrm : seq_rm s.kv s.system_prompt_position (s.system_prompt_position + 0) = s.kv := by
    apply List.filter_eq_self.mpr
    intro e _
    simp only [decide_eq_true_eq]
    omega
  rw [hrm]
  have hadd : seq_add s.kv (s.system_prompt_position + 0) s.current_position (-0) = s.kv := by
    unfold seq_add
    have : ∀ e : KVEntry,
        (if s.system_prompt_position + 0 ≤ e.pos ∧ e.pos < s.current_position then
          (⟨e.pos + -0, e.tok⟩ : KVEntry)
        else e) = e := by
      intro e
      split
      · simp
      · rfl
    simp only [this, List.map_id_fun, id]
    exact List.map_id s.kv
  rw [hadd]
  simp

/-! ### Lemmas about `decode_go` -/

/-- The batch-add calls that `decode_go` will issue for a token list, starting
at loop index `k`: token `ts[j]` goes to position `start + k + j`, with the
want-logit flag set only on the last token of the whole call. -/
def planned_batch (c : Bool) (total : Nat) (start : Int) :
    List Int → Nat → List BatchAdd
  | [], _ => []
  | t :: ts, k => ⟨t, start + (k : Int), c && (k == total - 1)⟩ :: planned_batch c total start ts (k + 1)

theorem decode_go_log (c : Bool) (total : Nat) (start : Int) :
    ∀ (ts : List Int) (k : Nat) (s : Session),
      (decode_go c total start ts k s).log = s.log ++ planned_batch c total start ts k := by
  intro ts
  induction ts with
  | nil => intro k s; simp [decode_go, planned_batch]
  | cons t ts ih =>
    intro k s
    rw [decode_go, planned_batch]
    rw [ih]
    split
    · rw [shift_context_log]; simp
    · simp

theorem decode_go_system (c : Bool) (total : Nat) (start : Int) :
    ∀ (ts : List Int) (k : Nat) (s : Session),
      (decode_go c total start ts k s).system_prompt_position = s.system_prompt_position := by
  intro ts
  induction ts with
  | nil => intro k s; simp [decode_go]
  | cons t ts ih =>
    intro k s
    rw [decode_go, ih]
    split
    · exact shift_context_system s
    · rfl

theorem decode_go_stop (c : Bool) (total : Nat) (start : Int) :
    ∀ (ts : List Int) (k : Nat) (s : Session),
      (decode_go c total start ts k s).stop_generation_position = s.stop_generation_position := by
  intro ts
  induction ts with
  | nil => intro k s; simp [decode_go]
  | cons t ts ih =>
    intro k s
    rw [decode_go, ih]
    split
    · exact shift_context_stop s
    · rfl

theorem decode_go_ctx (c : Bool) (total : Nat) (start : Int) :
    ∀ (ts : List Int) (k : Nat) (s : Session),
      (decode_go c total start ts k s).context_owned = s.context_owned := by
  intro ts
  induction ts with
  | nil => intro k s; simp [decode_go]
  | cons t ts ih =>
    intro k s
    rw [decode_go, ih]
    split
    · exact (shift_context_flags s).1
    · rfl

theorem decode_go_smp (c : Bool) (total : Nat) (start : Int) :
    ∀ (ts : List Int) (k : Nat) (s : Session),
      (decode_go c total start ts k s).sampler_owned = s.sampler_owned := by
  intro ts
  induction ts with
  | nil => intro k s; simp [decode_go]
  | cons t ts ih =>
    intro k s
    rw [decode_go, ih]
    split
    · exact (shift_context_flags s).2.1
    · rfl

theorem decode_go_cur_ge (c : Bool) (total : Nat) (start : Int) :
    ∀ (ts : List Int) (k : Nat) (s : Session),
      s.system_prompt_position ≤ s.current_position →
      s.system_prompt_position ≤ (decode_go c total start ts k s).current_position := by
  intro ts
  induction ts with
  | nil => intro k s h; simpa [decode_go] using h
  | cons t ts ih =>
    intro k s h
    rw [decode_go]
    split
    · have h1 : (shift_context s).system_prompt_position ≤ (shift_context s).current_position := by
        rw [shift_context_system]
        exact shift_context_cur_ge s h
      exact ih (k + 1) _ h1
    · exact ih (k + 1) _ h

theorem decode_go_cur_eq (c : Bool) (total : Nat) (start : Int) :
    ∀ (ts : List Int) (k : Nat) (s : Session),
      s.current_position = s.system_prompt_position →
      (decode_go c total start ts k s).current_position = s.current_position := by
  intro ts
  induction ts with
  | nil => intro k s _; simp [decode_go]
  | cons t ts ih =>
    intro k s h
    rw [decode_go]
    split
    · rw [shift_context_noop s h]
      exact ih (k + 1) _ h
    · exact ih (k + 1) _ h

theorem planned_batch_map_tok (c : Bool) (total : Nat) (start : Int) :
    ∀ (ts : List Int) (k : Nat),
      (planned_batch c total start ts k).map BatchAdd.tok = ts := by
  intro ts
  induction ts with
  | nil => intro k; simp [planned_batch]
  | cons t ts ih => intro k; simp [planned_batch, ih]

theorem planned_batch_length (c : Bool) (total : Nat) (start : Int) :
    ∀ (ts : List Int) (k : Nat),
      (planned_batch c total start ts k).length = ts.length := by
  intro ts
  induction ts with
  | nil => intro k; simp [planned_batch]
  | cons t ts ih => intro k; simp [planned_batch, ih]

theorem planned_batch_map_pos (c : Bool) (total : Nat) (start : Int) :
    ∀ (ts : List Int) (k : Nat),
      (planned_batch c total start ts k).map BatchAdd.pos
        = (List.range ts.length).map (fun j : Nat => start + (k : Int) + (j : Int)) := by
  intro ts
  induction ts with
  | nil => intro k; simp [planned_batch]
  | cons t ts ih =>
    intro k
    rw [planned_batch]
    rw [List.map_cons, ih (k + 1)]
    rw [List.length_cons, List.range_succ_eq_map, List.map_cons, List.map_map]
    congr 1
    · push_cast; ring
    · apply List.map_congr_left
      intro j _
      simp only [Function.comp_apply]
      push_cast
      ring

/-! ### Claim C4: effect of `shift_context` on the positions -/

/-- C4.  For every state with `system_prompt_boundary ≤ current_position`,
`shift()` leaves `system_prompt_position` unchanged and decreases
`current_position` by exactly `(current_position − system_prompt_position) / 2`
(C integer division); when the two positions are equal, `n_discard = 0` and
the shift is a no-op. -/
theorem shift_context_spec (s : Session)
    (h : s.system_prompt_position ≤ s.current_position) :
    (shift_context s).system_prompt_position = s.system_prompt_position ∧
    (shift_context s).current_position
      = s.current_position - (s.current_position - s.system_prompt_position).tdiv 2 ∧
    (s.current_position = s.system_prompt_position →
      (s.current_position - s.system_prompt_position).tdiv 2 = 0 ∧ shift_context s = s) := by
  refine ⟨shift_context_system s, shift_context_cur s, fun hEq => ⟨?_, shift_context_noop s hEq⟩⟩
  rw [show s.current_position - s.system_prompt_position = 0 by omega, Int.zero_tdiv]

/-- Witness for C4 at a concrete state. -/
theorem shift_context_spec_witness :
    let s : Session := { baseSession with system_prompt_position := 10, current_position := 20 }
    (shift_context s).system_prompt_position = 10 ∧
    (shift_context s).current_position = 15 :=
  ⟨(shift_context_spec _ (by decide)).1, by
    have h := (shift_context_spec
      { baseSession with system_prompt_position := 10, current_position := 20 } (by decide)).2.1
    rw [h]; decide⟩

/-! ### Claim C5: eviction only touches `[boundary, boundary + n_discard)` -/

/-- C5.  Under `system_prompt_boundary ≤ current_position`, every KV entry at a
position strictly below the boundary survives `shift_context` unchanged, and
the removal step (`llama_memory_seq_rm`) drops only entries whose position
lies in `[boundary, boundary + n_discard)`. -/
theorem shift_context_eviction (s : Session)
    (h : s.system_prompt_position ≤ s.current_position) :
    (∀ e ∈ s.kv, e.pos < s.system_prompt_position → e ∈ (shift_context s).kv) ∧
    (∀ e ∈ s.kv,
      e ∉ seq_rm s.kv s.system_prompt_position
            (s.system_prompt_position +
              (s.current_position - s.system_prompt_position).tdiv 2) →
      s.system_prompt_position ≤ e.pos ∧
      e.pos < s.system_prompt_position +
        (s.current_position - s.system_prompt_position).tdiv 2) := by
  have hd : 0 ≤ (s.current_position - s.system_prompt_position).tdiv 2 :=
    Int.tdiv_nonneg (by omega) (by omega)
  constructor
  · intro e he hlt
    show e ∈ seq_add _ _ _ _
    unfold seq_add
    refine List.mem_map.mpr ⟨e, ?_, ?_⟩
    · unfold seq_rm
      refine List.mem_filter.mpr ⟨he, ?_⟩
      simp only [decide_eq_true_eq]
      omega
    · rw [if_neg (by omega)]
  · intro e he hnot
    by_contra hcon
    apply hnot
    unfold seq_rm
    refine List.mem_filter.mpr ⟨he, ?_⟩
    simp only [decide_eq_true_eq]
    omega

/-- Witness for C5 at a concrete state: the entry at position 0 (system
prompt) survives the shift, and the entry dropped by the removal step sits in
the discard range. -/
theorem shift_context_eviction_witness :
    let s : Session := { baseSession with
      system_prompt_position := 1, current_position := 3,
      kv := [⟨0, 11⟩, ⟨1, 12⟩, ⟨2, 13⟩] }
    (⟨0, 11⟩ : KVEntry) ∈ (shift_context s).kv ∧
    (1 : Int) ≤ (1 : Int) ∧ (1 : Int) < 1 + ((3 : Int) - 1).tdiv 2 := by
  intro s
  refine ⟨(shift_context_eviction s (by decide)).1 ⟨0, 11⟩ (by decide) (by decide), ?_⟩
  exact (shift_context_eviction s (by decide)).2 ⟨1, 12⟩ (by decide) (by decide)

/-! ### Claim C10: decode positions are computed from the original start -/

/-- A state whose window is already full, so that decoding two tokens triggers
real shifts (with positive `n_discard`) in the middle of the run. -/
def fullSession : Session :=
  { baseSession with current_position := 252, kv := [⟨0, 9⟩, ⟨100, 9⟩, ⟨200, 9⟩] }

/-- C10.  `decode_tokens_in_batches` assigns to the j-th token of the sequence
the position `start_pos + j`, computed from the original start position and
never reduced by the `n_discard` of any shift triggered during the run; in
the concrete run from `fullSession` two shifts fire (the current position
drops from 252 to 63) while the new tokens are still placed at 251 and 252,
discontinuous with the shifted-down resident entries. -/
theorem decode_positions_from_start :
    (∀ (s : Session) (tokens : List Int) (start : Int) (c : Bool),
      ((decode_tokens_in_batches s tokens start c).1.log).map BatchAdd.pos
        = s.log.map BatchAdd.pos
          ++ (List.range tokens.length).map (fun j : Nat => start + (j : Int))) ∧
    ((decode_tokens_in_batches fullSession [7, 8] 251 false).1.current_position = 63 ∧
      ((decode_tokens_in_batches fullSession [7, 8] 251 false).1.log).map BatchAdd.pos
        = [251, 252]) := by
  constructor
  · intro s tokens start c
    show ((decode_go c tokens.length start tokens 0 s).log).map BatchAdd.pos = _
    rw [decode_go_log, List.map_append, planned_batch_map_pos]
    simp
  · constructor <;> decide

/-! ### Claim C1 (corrected): user-prompt truncation keeps the FIRST tokens -/

/-- C1, amended.  A user prompt tokenizing to more than
`WINDOW_CAPACITY − SAFETY_MARGIN = 252` tokens is truncated to exactly 252
tokens before decoding, keeping the first (leading) 252 tokens and dropping
the trailing excess (`std::vector::resize` keeps the prefix): the call
succeeds and the tokens handed to the decoder are `user_tokens.take 252`. -/
theorem user_prompt_truncation (s : Session) (user_tokens : List Int) (n_predict : Int)
    (hctx : s.context_owned = true)
    (hlen : (user_tokens.length : Int) > DEFAULT_CONTEXT_SIZE - OVERFLOW_HEADROOM) :
    (process_user_prompt_ffi s user_tokens n_predict).2 = 0 ∧
    ((process_user_prompt_ffi s user_tokens n_predict).1.log.drop s.log.length).map BatchAdd.tok
      = user_tokens.take (DEFAULT_CONTEXT_SIZE - OVERFLOW_HEADROOM).toNat := by
  unfold process_user_prompt_ffi
  rw [if_pos hctx]
  simp only [decode_tokens_in_batches]
  rw [if_pos hlen]
  refine ⟨by trivial, ?_⟩
  show ((decode_go _ _ _ _ 0 (reset_short_term_states s)).log.drop s.log.length).map _ = _
  rw [decode_go_log]
  have hres : (reset_short_term_states s).log = s.log := rfl
  rw [hres, List.drop_left, planned_batch_map_tok]

set_option maxRecDepth 100000 in
/-- Witness for C1 (amended) at a concrete oversized prompt. -/
theorem user_prompt_truncation_witness :
    (process_user_prompt_ffi baseSession ((List.range 253).map fun n => (n : Int)) 5).2 = 0 ∧
    ((process_user_prompt_ffi baseSession ((List.range 253).map fun n => (n : Int)) 5).1.log.drop
        baseSession.log.length).map BatchAdd.tok
      = ((List.range 253).map fun n => (n : Int)).take
          (DEFAULT_CONTEXT_SIZE - OVERFLOW_HEADROOM).toNat :=
  user_prompt_truncation baseSession _ 5 (by decide) (by decide)

set_option maxRecDepth 100000 in
/-- Counterexample to C1 as stated: for the 253-token prompt `[0, 1, …, 252]`
the decoded tokens are not the last 252 tokens `[1, …, 252]` (right-aligned
truncation would require them to be); the decode log begins with token 0 and
never contains token 252. -/
theorem user_prompt_truncation_counterexample :
    (process_user_prompt_ffi baseSession ((List.range 253).map fun n => (n : Int)) 5).2 = 0 ∧
    ((process_user_prompt_ffi baseSession ((List.range 253).map fun n => (n : Int)) 5).1.log.drop
        baseSession.log.length).map BatchAdd.tok
      ≠ ((List.range 253).map fun n => (n : Int)).drop 1 := by
  decide

/-! ### Claim C3 (corrected): over-long system prompt is rejected, but the
state is reset first -/

/-- C3, amended.  A system prompt tokenizing to more than
`WINDOW_CAPACITY − SAFETY_MARGIN = 252` tokens makes `process_system_prompt`
return the failure status 1 without truncating or decoding anything (the
engine-call log is untouched); however the operation resets conversation and
turn state before the length check, so `current_position` (and the boundary)
are left at 0 rather than at their pre-call values. -/
theorem system_prompt_too_long (s : Session) (system_tokens : List Int)
    (hctx : s.context_owned = true)
    (hlen : (system_tokens.length : Int) > DEFAULT_CONTEXT_SIZE - OVERFLOW_HEADROOM) :
    (process_system_prompt_ffi s system_tokens).2 = 1 ∧
    (process_system_prompt_ffi s system_tokens).1.log = s.log ∧
    (process_system_prompt_ffi s system_tokens).1.current_position = 0 ∧
    (process_system_prompt_ffi s system_tokens).1.system_prompt_position = 0 := by
  unfold process_system_prompt_ffi
  rw [if_pos hctx, if_pos hlen]
  exact ⟨rfl, rfl, rfl, rfl⟩

set_option maxRecDepth 100000 in
/-- Witness for C3 (amended) at a concrete oversized system prompt. -/
theorem system_prompt_too_long_witness :
    (process_system_prompt_ffi baseSession (List.replicate 253 1)).2 = 1 ∧
    (process_system_prompt_ffi baseSession (List.replicate 253 1)).1.log = baseSession.log ∧
    (process_system_prompt_ffi baseSession (List.replicate 253 1)).1.current_position = 0 ∧
    (process_system_prompt_ffi baseSession (List.replicate 253 1)).1.system_prompt_position = 0 :=
  system_prompt_too_long baseSession _ (by decide) (by decide)

set_option maxRecDepth 100000 in
/-- Counterexample to C3 as stated: from a state whose `current_position` is 5,
an over-long system prompt returns status 1 but `current_position` comes back
0, not 5 — the call does alter `current_position` (it resets it). -/
theorem system_prompt_too_long_counterexample :
    (process_system_prompt_ffi { baseSession with current_position := 5 }
        (List.replicate 253 1)).2 = 1 ∧
    (process_system_prompt_ffi { baseSession with current_position := 5 }
        (List.replicate 253 1)).1.current_position
      ≠ ({ baseSession with current_position := 5 } : Session).current_position := by
  decide

/-! ### Claim C9: truncated user prompt advances by the original count -/

/-- C9.  When a user prompt tokenizes to more than 252 tokens, the call
succeeds, only 252 tokens are handed to the decoder (the log grows by exactly
252 entries), yet `current_position` is advanced by the original token count:
it ends at least `system_prompt_position + user_tokens.length`, hence strictly
above `WINDOW_CAPACITY − SAFETY_MARGIN` and above the number of tokens
actually decoded. -/
theorem user_prompt_overadvance (s : Session) (user_tokens : List Int) (n_predict : Int)
    (hctx : s.context_owned = true)
    (hlen : (user_tokens.length : Int) > DEFAULT_CONTEXT_SIZE - OVERFLOW_HEADROOM)
    (hb0 : 0 ≤ s.system_prompt_position)
    (hbc : s.system_prompt_position ≤ s.current_position) :
    (process_user_prompt_ffi s user_tokens n_predict).2 = 0 ∧
    (process_user_prompt_ffi s user_tokens n_predict).1.log.length
      = s.log.length + (DEFAULT_CONTEXT_SIZE - OVERFLOW_HEADROOM).toNat ∧
    s.system_prompt_position + (user_tokens.length : Int)
      ≤ (process_user_prompt_ffi s user_tokens n_predict).1.current_position ∧
    (process_user_prompt_ffi s user_tokens n_predict).1.current_position
      > DEFAULT_CONTEXT_SIZE - OVERFLOW_HEADROOM := by
  unfold process_user_prompt_ffi
  rw [if_pos hctx]
  simp only [decode_tokens_in_batches]
  rw [if_pos hlen]
  have hK : DEFAULT_CONTEXT_SIZE - OVERFLOW_HEADROOM = (252 : Int) := by decide
  have h252 : (DEFAULT_CONTEXT_SIZE - OVERFLOW_HEADROOM).toNat = 252 := by decide
  have hres2 : (reset_short_term_states s).system_prompt_position = s.system_prompt_position := rfl
  have hge := decode_go_cur_ge true
    (user_tokens.take (DEFAULT_CONTEXT_SIZE - OVERFLOW_HEADROOM).toNat).length
    (reset_short_term_states s).current_position
    (user_tokens.take (DEFAULT_CONTEXT_SIZE - OVERFLOW_HEADROOM).toNat) 0
    (reset_short_term_states s) hbc
  rw [hres2] at hge
  refine ⟨by trivial, ?_, ?_, ?_⟩
  · show ((decode_go _ _ _ _ 0 (reset_short_term_states s)).log ).length = _
    rw [decode_go_log]
    have hres : (reset_short_term_states s).log = s.log := rfl
    rw [hres, List.length_append, planned_batch_length, List.length_take, h252]
    rw [hK] at hlen
    omega
  · show s.system_prompt_position + _ ≤ (decode_go _ _ _ _ 0 (reset_short_term_states s)).current_position + _
    rw [hK] at hlen
    omega
  · show (decode_go _ _ _ _ 0 (reset_short_term_states s)).current_position + _ > _
    omega

set_option maxRecDepth 100000 in
/-- Witness for C9 at a concrete 253-token prompt: `current_position` ends at
254 > 252 while only 252 tokens were decoded. -/
theorem user_prompt_overadvance_witness :
    (process_user_prompt_ffi baseSession (List.replicate 253 7) 5).2 = 0 ∧
    (process_user_prompt_ffi baseSession (List.replicate 253 7) 5).1.log.length
      = baseSession.log.length + (DEFAULT_CONTEXT_SIZE - OVERFLOW_HEADROOM).toNat ∧
    baseSession.system_prompt_position + ((List.replicate 253 (7:Int)).length : Int)
      ≤ (process_user_prompt_ffi baseSession (List.replicate 253 7) 5).1.current_position ∧
    (process_user_prompt_ffi baseSession (List.replicate 253 7) 5).1.current_position
      > DEFAULT_CONTEXT_SIZE - OVERFLOW_HEADROOM :=
  user_prompt_overadvance baseSession _ 5 (by decide) (by decide) (by decide) (by decide)

/-! ### Lemmas about `generate_next_token_ffi` -/

theorem generate_not_owned (e : Int → Bool) (p : Int → List Nat) (t : Int) (s : Session)
    (h : (s.context_owned && s.sampler_owned) = false) :
    generate_next_token_ffi e p t s = (s, none) := by
  simp [generate_next_token_ffi, h]

theorem generate_eos (e : Int → Bool) (p : Int → List Nat) (t : Int) (s : Session)
    (hown : (s.context_owned && s.sampler_owned) = true)
    (hlt : s.current_position < DEFAULT_CONTEXT_SIZE - OVERFLOW_HEADROOM)
    (hge : s.stop_generation_position ≤ s.current_position) :
    generate_next_token_ffi e p t s = (s, none) := by
  unfold generate_next_token_ffi
  rw [hown]
  simp only [if_true]
  rw [if_neg (not_le.mpr hlt), if_pos hge]

theorem generate_step_state (e : Int → Bool) (p : Int → List Nat) (t : Int) (s : Session)
    (hown : (s.context_owned && s.sampler_owned) = true)
    (hlt : s.current_position < DEFAULT_CONTEXT_SIZE - OVERFLOW_HEADROOM)
    (hlt2 : s.current_position < s.stop_generation_position) :
    (generate_next_token_ffi e p t s).1.system_prompt_position = s.system_prompt_position ∧
    (generate_next_token_ffi e p t s).1.current_position = s.current_position + 1 ∧
    (generate_next_token_ffi e p t s).1.stop_generation_position
      = s.stop_generation_position ∧
    (generate_next_token_ffi e p t s).1.context_owned = s.context_owned ∧
    (generate_next_token_ffi e p t s).1.sampler_owned = s.sampler_owned := by
  unfold generate_next_token_ffi
  rw [hown]
  simp only [if_true]
  rw [if_neg (not_le.mpr hlt), if_neg (not_le.mpr hlt2)]
  split
  · exact ⟨rfl, rfl, rfl, rfl, rfl⟩
  · split
    · exact ⟨rfl, rfl, rfl, rfl, rfl⟩
    · exact ⟨rfl, rfl, rfl, rfl, rfl⟩

/-! ### Claim C2 (corrected): the position invariant -/

/-- C2, amended.  `0 ≤ system_prompt_boundary ≤ current_position` is
established by a successful `process_system_prompt` (which moreover gives
`boundary = current_position ≤ 252`) and preserved by `process_user_prompt`
and by every `generate_next_token` step; but the upper bound
`current_position ≤ WINDOW_CAPACITY − SAFETY_MARGIN = 252` is not an
invariant — see the counterexample, where an oversized user prompt drives
`current_position` to 254. -/
theorem position_invariant (s : Session) (sys_toks user_toks : List Int) (n_predict : Int)
    (e : Int → Bool) (p : Int → List Nat) (t : Int)
    (hctx : s.context_owned = true)
    (hb0 : 0 ≤ s.system_prompt_position)
    (hbc : s.system_prompt_position ≤ s.current_position) :
    ((process_system_prompt_ffi s sys_toks).2 = 0 →
      0 ≤ (process_system_prompt_ffi s sys_toks).1.system_prompt_position ∧
      (process_system_prompt_ffi s sys_toks).1.system_prompt_position
        = (process_system_prompt_ffi s sys_toks).1.current_position ∧
      (process_system_prompt_ffi s sys_toks).1.current_position
        ≤ DEFAULT_CONTEXT_SIZE - OVERFLOW_HEADROOM) ∧
    (0 ≤ (process_user_prompt_ffi s user_toks n_predict).1.system_prompt_position ∧
      (process_user_prompt_ffi s user_toks n_predict).1.system_prompt_position
        ≤ (process_user_prompt_ffi s user_toks n_predict).1.current_position) ∧
    (0 ≤ (generate_next_token_ffi e p t s).1.system_prompt_position ∧
      (generate_next_token_ffi e p t s).1.system_prompt_position
        ≤ (generate_next_token_ffi e p t s).1.current_position) := by
  refine ⟨?_, ?_, ?_⟩
  · unfold process_system_prompt_ffi
    rw [if_pos hctx]
    split
    · intro h0
      simp at h0
    · intro _
      refine ⟨?_, rfl, ?_⟩
      · show (0:Int) ≤ (sys_toks.length : Int)
        exact Int.natCast_nonneg _
      · show (sys_toks.length : Int) ≤ DEFAULT_CONTEXT_SIZE - OVERFLOW_HEADROOM
        omega
  · unfold process_user_prompt_ffi
    rw [if_pos hctx]
    simp only [decode_tokens_in_batches]
    split
    · constructor
      · show (0:Int) ≤ (decode_go _ _ _ _ 0 (reset_short_term_states s)).system_prompt_position
        rw [decode_go_system]
        exact hb0
      · show (decode_go _ _ _ _ 0 (reset_short_term_states s)).system_prompt_position
          ≤ (decode_go _ _ _ _ 0 (reset_short_term_states s)).current_position + _
        rw [decode_go_system]
        have hge := decode_go_cur_ge true
          (user_toks.take (DEFAULT_CONTEXT_SIZE - OVERFLOW_HEADROOM).toNat).length
          (reset_short_term_states s).current_position
          (user_toks.take (DEFAULT_CONTEXT_SIZE - OVERFLOW_HEADROOM).toNat) 0
          (reset_short_term_states s) hbc
        have hres2 : (reset_short_term_states s).system_prompt_position
          = s.system_prompt_position := rfl
        rw [hres2] at hge
        have hnn : (0:Int) ≤ (user_toks.length : Int) := Int.natCast_nonneg _
        omega
    · constructor
      · show (0:Int) ≤ (decode_go _ _ _ _ 0 (reset_short_term_states s)).system_prompt_position
        rw [decode_go_system]
        exact hb0
      · show (decode_go _ _ _ _ 0 (reset_short_term_states s)).system_prompt_position
          ≤ (decode_go _ _ _ _ 0 (reset_short_term_states s)).current_position + _
        rw [decode_go_system]
        have hge := decode_go_cur_ge true user_toks.length
          (reset_short_term_states s).current_position user_toks 0
          (reset_short_term_states s) hbc
        have hres2 : (reset_short_term_states s).system_prompt_position
          = s.system_prompt_position := rfl
        rw [hres2] at hge
        have hnn : (0:Int) ≤ (user_toks.length : Int) := Int.natCast_nonneg _
        omega
  · by_cases hown : (s.context_owned && s.sampler_owned) = true
    · unfold generate_next_token_ffi
      rw [hown]
      simp only [if_true]
      split
      · -- shift branch
        have hb1 : (shift_context s).system_prompt_position = s.system_prompt_position :=
          shift_context_system s
        have hc1 : s.system_prompt_position ≤ (shift_context s).current_position :=
          shift_context_cur_ge s hbc
        split
        · dsimp only
          omega
        · split
          · dsimp only
            omega
          · split
            · dsimp only
              omega
            · dsimp only
              omega
      · split
        · dsimp only
          exact ⟨hb0, hbc⟩
        · split
          · dsimp only
            exact ⟨hb0, by omega⟩
          · split
            · dsimp only
              exact ⟨hb0, by omega⟩
            · dsimp only
              exact ⟨hb0, by omega⟩
    · rw [generate_not_owned e p t s (by simpa using hown)]
      exact ⟨hb0, hbc⟩

set_option maxRecDepth 100000 in
/-- Counterexample to C2 as stated: a fully successful run (system prompt of
one token, then a 253-token user prompt) reaches an active-generation state
with `current_position = 254 > 252`, violating
`current_position ≤ WINDOW_CAPACITY − SAFETY_MARGIN`. -/
theorem position_invariant_counterexample :
    (process_system_prompt_ffi baseSession [5]).2 = 0 ∧
    (process_user_prompt_ffi (process_system_prompt_ffi baseSession [5]).1
        (List.replicate 253 7) 5).2 = 0 ∧
    ¬ ((process_user_prompt_ffi (process_system_prompt_ffi baseSession [5]).1
          (List.replicate 253 7) 5).1.current_position
        ≤ DEFAULT_CONTEXT_SIZE - OVERFLOW_HEADROOM) := by
  decide

/-- Witness for C2 (amended) at a concrete state. -/
theorem position_invariant_witness :
    (0 ≤ (process_user_prompt_ffi baseSession [3, 4] 5).1.system_prompt_position ∧
      (process_user_prompt_ffi baseSession [3, 4] 5).1.system_prompt_position
        ≤ (process_user_prompt_ffi baseSession [3, 4] 5).1.current_position) ∧
    (0 ≤ (generate_next_token_ffi (fun _ => false) (fun _ => [65]) 7 baseSession).1.system_prompt_position ∧
      (generate_next_token_ffi (fun _ => false) (fun _ => [65]) 7 baseSession).1.system_prompt_position
        ≤ (generate_next_token_ffi (fun _ => false) (fun _ => [65]) 7 baseSession).1.current_position) :=
  ⟨(position_invariant baseSession [] [3, 4] 5 (fun _ => false) (fun _ => [65]) 7
      (by decide) (by decide) (by decide)).2.1,
   (position_invariant baseSession [] [3, 4] 5 (fun _ => false) (fun _ => [65]) 7
      (by decide) (by decide) (by decide)).2.2⟩

/-! ### Claim C6: UTF-8 streaming assembler -/

/-- A prepared state about to generate (system prompt at 0, five tokens
allowed), used for the concrete assembler scenarios. -/
def genSession : Session :=
  { baseSession with stop_generation_position := 5 }

/-- Detokenizer oracle that splits the two bytes of U+00E9 across tokens 1
and 2. -/
def pieceSplit : Int → List Nat := fun t => if t == 1 then [0xC3] else [0xA9]

/-- Detokenizer oracle that yields both bytes of U+00E9 for any token. -/
def pieceWhole : Int → List Nat := fun _ => [0xC3, 0xA9]

/-- Sampler-vocabulary oracle that never reports end-of-generation. -/
def neverEog : Int → Bool := fun _ => false

/-- C6.  In a generation step that produces a non-EOG token, the newly
detokenized bytes are appended to the pending buffer and the whole buffer is
validated: a valid buffer is emitted entirely as one chunk, appended to the
accumulator, and cleared; an invalid buffer yields the empty chunk and is
retained.  Consequently feeding the two bytes of `é` in one call emits the
character, while splitting them across two calls emits an empty chunk first
and the full character second. -/
theorem utf8_assembler (s : Session) (e : Int → Bool) (p : Int → List Nat) (t : Int)
    (hown : (s.context_owned && s.sampler_owned) = true)
    (hlt : s.current_position < DEFAULT_CONTEXT_SIZE - OVERFLOW_HEADROOM)
    (hlt2 : s.current_position < s.stop_generation_position)
    (heog : e t = false) :
    ((is_valid_utf8 (s.cached_token_chars ++ p t) = true →
        (generate_next_token_ffi e p t s).2 = some (s.cached_token_chars ++ p t) ∧
        (generate_next_token_ffi e p t s).1.cached_token_chars = [] ∧
        (generate_next_token_ffi e p t s).1.assistant_ss
          = s.assistant_ss ++ (s.cached_token_chars ++ p t)) ∧
      (is_valid_utf8 (s.cached_token_chars ++ p t) = false →
        (generate_next_token_ffi e p t s).2 = some [] ∧
        (generate_next_token_ffi e p t s).1.cached_token_chars
          = s.cached_token_chars ++ p t ∧
        (generate_next_token_ffi e p t s).1.assistant_ss = s.assistant_ss)) ∧
    ((generate_next_token_ffi neverEog pieceWhole 3 genSession).2 = some [0xC3, 0xA9] ∧
      (generate_next_token_ffi neverEog pieceSplit 1 genSession).2 = some [] ∧
      (generate_next_token_ffi neverEog pieceSplit 2
          (generate_next_token_ffi neverEog pieceSplit 1 genSession).1).2
        = some [0xC3, 0xA9]) := by
  constructor
  · unfold generate_next_token_ffi
    rw [hown]
    simp only [if_true]
    rw [if_neg (not_le.mpr hlt), if_neg (not_le.mpr hlt2), heog]
    simp only [Bool.false_eq_true, if_false]
    constructor
    · intro hv
      rw [if_pos hv]
      exact ⟨rfl, rfl, rfl⟩
    · intro hv
      rw [if_neg (by simp [hv])]
      exact ⟨rfl, rfl, rfl⟩
  · refine ⟨by decide, by decide, by decide⟩

/-- Witness for C6 at a concrete state: a single ASCII byte is valid and is
emitted at once. -/
theorem utf8_assembler_witness :
    (generate_next_token_ffi neverEog (fun _ => [0x41]) 9 genSession).2 = some [0x41] ∧
    (generate_next_token_ffi neverEog (fun _ => [0x41]) 9 genSession).1.cached_token_chars
      = [] :=
  ⟨((utf8_assembler genSession neverEog (fun _ => [0x41]) 9 (by decide) (by decide)
      (by decide) (by decide)).1.1 (by decide)).1,
   ((utf8_assembler genSession neverEog (fun _ => [0x41]) 9 (by decide) (by decide)
      (by decide) (by decide)).1.1 (by decide)).2.1⟩

/-! ### Claim C7 (corrected): end-of-stream behaviour of the generation loop -/

/-- The number of chunks (one per generated token) returned by repeatedly
calling `generate_next_token_ffi` until the first NULL sentinel, within
`fuel` calls; `smp` is the stream of sampled tokens. -/
def gen_count (e : Int → Bool) (p : Int → List Nat) (smp : Nat → Int) :
    Nat → Nat → Session → Nat
  | 0, _, _ => 0
  | fuel + 1, idx, s =>
    match generate_next_token_ffi e p (smp idx) s with
    | (_, none) => 0
    | (s', some _) => 1 + gen_count e p smp fuel (idx + 1) s'

theorem gen_count_le (e : Int → Bool) (p : Int → List Nat) (smp : Nat → Int) :
    ∀ (fuel : Nat) (idx : Nat) (s : Session),
      s.context_owned = true → s.sampler_owned = true →
      s.stop_generation_position < DEFAULT_CONTEXT_SIZE - OVERFLOW_HEADROOM →
      s.current_position ≤ s.stop_generation_position →
      gen_count e p smp fuel idx s
        ≤ (s.stop_generation_position - s.current_position).toNat := by
  intro fuel
  induction fuel with
  | zero => intro idx s _ _ _ _; simp [gen_count]
  | succ fuel ih =>
    intro idx s hctx hsmp hstop hcs
    have hown : (s.context_owned && s.sampler_owned) = true := by simp [hctx, hsmp]
    by_cases hlt2 : s.current_position < s.stop_generation_position
    · have hlt : s.current_position < DEFAULT_CONTEXT_SIZE - OVERFLOW_HEADROOM := by omega
      have hstep := generate_step_state e p (smp idx) s hown hlt hlt2
      rw [gen_count]
      rcases hg : generate_next_token_ffi e p (smp idx) s with ⟨s', r⟩
      rw [hg] at hstep
      cases r with
      | none => simp
      | some c =>
        simp only []
        have hrec := ih (idx + 1) s'
          (by rw [hstep.2.2.2.1]; exact hctx)
          (by rw [hstep.2.2.2.2]; exact hsmp)
          (by rw [hstep.2.2.1]; exact hstop)
          (by rw [hstep.2.2.1, hstep.2.1]; omega)
        rw [hstep.2.2.1, hstep.2.1] at hrec
        omega
    · have hlt : s.current_position < DEFAULT_CONTEXT_SIZE - OVERFLOW_HEADROOM := by omega
      rw [gen_count, generate_eos e p (smp idx) s hown hlt (by omega)]
      simp

/-- C7, amended.  (i) When `current_position ≥ stop_position` **and** the
window is not yet at the shift threshold (`current_position < 252`),
`generate_next_token` returns the end-of-stream sentinel and leaves the state
unchanged.  (ii) After a user prompt, `stop_position − current_position =
n_predict`.  (iii) As long as `stop_position < 252` (so no shift can fire
before the stop is reached), repeated calls return at most
`stop_position − current_position` chunks — hence at most `n_predict` for the
turn.  Without the `< 252` qualification the claim is false: the shift check
runs before the stop check and can pull `current_position` back below
`stop_position` (see the counterexample). -/
theorem generation_stop (s : Session) (user_toks : List Int) (n_predict : Int)
    (e : Int → Bool) (p : Int → List Nat) (t : Int) (smp : Nat → Int)
    (hctx : s.context_owned = true) (hsmp : s.sampler_owned = true) :
    (s.current_position < DEFAULT_CONTEXT_SIZE - OVERFLOW_HEADROOM →
      s.stop_generation_position ≤ s.current_position →
      generate_next_token_ffi e p t s = (s, none)) ∧
    ((process_user_prompt_ffi s user_toks n_predict).1.stop_generation_position
        - (process_user_prompt_ffi s user_toks n_predict).1.current_position
      = n_predict) ∧
    (s.stop_generation_position < DEFAULT_CONTEXT_SIZE - OVERFLOW_HEADROOM →
      s.current_position ≤ s.stop_generation_position →
      ∀ (fuel idx : Nat),
        gen_count e p smp fuel idx s
          ≤ (s.stop_generation_position - s.current_position).toNat) := by
  refine ⟨?_, ?_, ?_⟩
  · intro hlt hge
    exact generate_eos e p t s (by simp [hctx, hsmp]) hlt hge
  · unfold process_user_prompt_ffi
    rw [if_pos hctx]
    simp only [decode_tokens_in_batches]
    split <;> omega
  · intro hstop hcs fuel idx
    exact gen_count_le e p smp fuel idx s hctx hsmp hstop hcs

/-- Witness for C7 (amended) at a concrete state. -/
theorem generation_stop_witness :
    (generate_next_token_ffi neverEog pieceWhole 7
        { baseSession with current_position := 3, stop_generation_position := 3 }
      = ({ baseSession with current_position := 3, stop_generation_position := 3 }, none)) ∧
    gen_count neverEog pieceWhole (fun _ => 7) 5 0
        { baseSession with current_position := 3, stop_generation_position := 3 } ≤ 0 :=
  ⟨(generation_stop { baseSession with current_position := 3, stop_generation_position := 3 }
      [] 0 neverEog pieceWhole 7 (fun _ => 7) (by decide) (by decide)).1
      (by decide) (by decide),
   by
    have h := (generation_stop
      { baseSession with current_position := 3, stop_generation_position := 3 }
      [] 0 neverEog pieceWhole 7 (fun _ => 7) (by decide) (by decide)).2.2
      (by decide) (by decide) 5 0
    simpa using h⟩

/-- A state at the shift threshold with the stop position already reached:
`system_prompt_boundary = 250`, `current_position = stop_position = 252`. -/
def nearStopSession : Session :=
  { baseSession with
    system_prompt_position := 250,
    current_position := 252,
    stop_generation_position := 252 }

/-- Counterexample to C7 as stated: with `system_prompt_boundary = 250`,
`current_position = 252 ≥ stop_position = 252` the call does **not** return
the end-of-stream sentinel — the shift check fires first, pulls
`current_position` back to 251 < 252, and a token is generated and returned. -/
theorem generation_stop_counterexample :
    nearStopSession.current_position ≥ nearStopSession.stop_generation_position ∧
    (generate_next_token_ffi neverEog (fun _ => [0x41]) 7 nearStopSession).2 ≠ none := by
  decide

/-! ### Claim C8: `unload_ffi` is idempotent and frees each resource once -/

/-- C8.  From a fully loaded state, `unload_ffi` frees the sampler, the batch,
the context and the model exactly once (in that order), nulls the three
pointer handles, and a second call frees nothing and leaves the state
unchanged. -/
theorem unload_idempotent (s : Session)
    (h1 : s.sampler_owned = true) (h2 : s.context_owned = true)
    (h3 : s.model_owned = true) :
    (unload_ffi s).frees = s.frees ++ [.sampler, .batch, .context, .model] ∧
    (unload_ffi s).sampler_owned = false ∧
    (unload_ffi s).context_owned = false ∧
    (unload_ffi s).model_owned = false ∧
    (unload_ffi (unload_ffi s)).frees = (unload_ffi s).frees ∧
    unload_ffi (unload_ffi s) = unload_ffi s := by
  unfold unload_ffi reset_long_term_states reset_short_term_states
  simp [h1, h2, h3]

/-- Witness for C8 at the concrete fully loaded state. -/
theorem unload_idempotent_witness :
    (unload_ffi baseSession).frees
      = baseSession.frees ++ [.sampler, .batch, .context, .model] ∧
    unload_ffi (unload_ffi baseSession) = unload_ffi baseSession :=
  ⟨(unload_idempotent baseSession (by decide) (by decide) (by decide)).1,
   (unload_idempotent baseSession (by decide) (by decide) (by decide)).2.2.2.2.2⟩

end AIChat
